import Mathlib

/-!
Verification of the Auduino granular synthesiser core (`src/auduino.cpp`)
against its natural-language specification.

The repository ships only `auduino.cpp` under `src/`; the headers it
includes (`phase.h`, `grain.h`, `asm.h`) are not part of the sources we
were given.  Components that live in those headers (the `Phase`
accumulator, the `Env` envelope, the `Grain` oscillator and the `mulsu`
multiply) are therefore modelled from the specification, and each such
definition carries a doc comment starting with `Modelled from the spec:`.
Everything else (the lookup tables, the map helpers, the MIDI handlers and
the interrupt-handler output pipeline) is translated directly from
`auduino.cpp`.

Machine integers are embedded as `Nat`/`Int` with explicit `% 2^w`
reductions where the C code relies on fixed-width wraparound.
-/

set_option maxRecDepth 16384

namespace Auduino

/-! ## Data model -/

/-- Gate state of a musical note (`Note::Gate` in `auduino.cpp`). -/
inductive Gate where
  | CLOSED : Gate
  | OPEN : Gate
deriving DecidableEq, Repr

/-- A musical note: gate state, key number and velocity
(`struct Note` in `auduino.cpp`; `number` and `velocity` are `uint8_t`). -/
structure Note where
  gate : Gate
  number : ℕ
  velocity : ℕ
deriving DecidableEq, Repr

/-- Modelled from the spec: `phase.h` is not under `src/`.  A 16-bit phase
accumulator `{ position, increment }`; `position` wraps modulo 2^16 every
advance, and overflow is detected by comparing the post-increment position
against the pre-increment position (position decreased means wrapped).
The `overflowed` flag records the result of the last advance so that
`hasOverflowed()` can be queried after `operator++`, as the interrupt
handler in `auduino.cpp` does. -/
structure Phase where
  pos : ℕ
  inc : ℕ
  overflowed : Bool
deriving DecidableEq, Repr

/-- Modelled from the spec: `advance()` (`operator++` in the source) adds
`increment` to `position` with 16-bit wraparound and records whether
wraparound occurred this call. -/
def Phase.advance (p : Phase) : Phase :=
  let pos := (p.pos + p.inc) % 65536
  ⟨pos, p.inc, decide (pos < p.pos)⟩

/-- Modelled from the spec: reports whether the last advance wrapped. -/
def Phase.hasOverflowed (p : Phase) : Bool := p.overflowed

/-- Modelled from the spec: `setIncrement(v)` replaces `increment`
unconditionally. -/
def Phase.setInc (p : Phase) (v : ℕ) : Phase := { p with inc := v % 65536 }

/-- Modelled from the spec: `grain.h` is not under `src/`.  The envelope
`{ amplitude : u16, decayRate : u8, divider : u8, counter : u8 }`. -/
structure Env where
  amp : ℕ
  decay : ℕ
  divider : ℕ
  counter : ℕ
deriving DecidableEq, Repr

/-- Modelled from the spec: `tick()` increments the internal counter (an
8-bit value); when the counter reaches `divider` it resets the counter and
subtracts `amplitude >> decayRate` from `amplitude`, floored at zero. -/
def Env.tick (e : Env) : Env :=
  let c := (e.counter + 1) % 256
  if c = e.divider then { e with counter := 0, amp := e.amp - (e.amp >>> e.decay) }
  else { e with counter := c }

/-- Modelled from the spec: `value()` returns the normalized high byte of
the amplitude, as consumed by the mixer.  The range analysis in the
interrupt handler of `auduino.cpp` (lines 305–311) fixes this reading:
after a note-on `amp = velocity << 8` and the comment's maximal
`env.value()` is the maximal velocity 127, i.e. `value() = amp >> 8`. -/
def Env.value (e : Env) : ℕ := e.amp >>> 8

/-- `n` consecutive `tick()` calls. -/
def Env.tickN (e : Env) : ℕ → Env
  | 0 => e
  | n + 1 => (e.tickN n).tick

/-- Modelled from the spec: a grain couples one phase accumulator with one
envelope (owned by value). -/
structure Grain where
  phase : Phase
  env : Env
deriving DecidableEq, Repr

/-- Modelled from the spec: the waveform value derived from the high bits
of a 16-bit phase position — a triangle built from the top bits (the
classic Auduino shape: the 8 bits below the sign bit, complemented on the
upper half of the cycle).  Always at most 255. -/
def Grain.tri (pos : ℕ) : ℕ :=
  let v := (pos >>> 7) % 256
  if pos % 65536 ≥ 32768 then 255 - v else v

/-- Modelled from the spec: `getSample()` returns the waveform derived
from the high bits of the phase position, attenuated by the current
envelope amplitude (phase-as-waveform times envelope-as-volume, using the
amplitude's high byte). -/
def Grain.getSample (g : Grain) : ℕ := Grain.tri g.phase.pos * (g.env.amp >>> 8)

/-- Modelled from the spec: `reset()` reinitializes the phase position to
zero and the envelope amplitude to full scale, keeping the configured
decay parameters.  Full scale is the top of the 15-bit amplitude range
(0x7fff), the largest initial amplitude for which the spec's mixing bound
(two summed grain samples fit an unsigned 16-bit word) holds. -/
def Grain.reset (g : Grain) : Grain :=
  { phase := { g.phase with pos := 0 },
    env := { g.env with amp := 32767, counter := 0 } }

/-- The playable voice (`struct Voice` in `auduino.cpp`): a note, a master
envelope, two sync phase accumulators and two grains. -/
structure Voice where
  note : Note
  env : Env
  sync0 : Phase
  sync1 : Phase
  grain0 : Grain
  grain1 : Grain
deriving DecidableEq, Repr

/-! ## Lookup tables

`midiTable` in `auduino.cpp` is generated at compile time from
`MIDI_TO_INC(p) = freqToInc(midiNoteToFreq(p), 65536, 31250)` with
`midiNoteToFreq(p) = pow(2, (p-69)/12) * 440` and
`freqToInc(f, s, r) = f*s/r + 0.5` truncated to `uint16_t`.  The 128
resulting constants are listed below (they coincide with the literal
table kept in a comment right after `midiTable` in the source, lines
142–150). -/

def midiTableList : List ℕ :=
  [17, 18, 19, 20, 22, 23, 24, 26, 27, 29, 31, 32, 34, 36, 38, 41,
   43, 46, 48, 51, 54, 58, 61, 65, 69, 73, 77, 82, 86, 92, 97, 103,
   109, 115, 122, 129, 137, 145, 154, 163, 173, 183, 194, 206, 218, 231, 244, 259,
   274, 291, 308, 326, 346, 366, 388, 411, 435, 461, 489, 518, 549, 581, 616, 652,
   691, 732, 776, 822, 871, 923, 978, 1036, 1097, 1163, 1232, 1305, 1383, 1465, 1552, 1644,
   1742, 1845, 1955, 2071, 2195, 2325, 2463, 2610, 2765, 2930, 3104, 3288, 3484, 3691, 3910, 4143,
   4389, 4650, 4927, 5220, 5530, 5859, 6207, 6577, 6968, 7382, 7821, 8286, 8779, 9301, 9854, 10440,
   11060, 11718, 12415, 13153, 13935, 14764, 15642, 16572, 17557, 18601, 19708, 20879, 22121, 23436, 24830, 26306]

/-- In-range read of `midiTable` (index by pitch number 0–127). -/
def midiTable (p : ℕ) : ℕ := midiTableList.getD p 0

/-- A read of `midiTable` at a possibly negative index, as produced by the
note-on handler's `number - 24` (in C the `uint8_t` is promoted to `int`,
so the index can be negative).  An out-of-range index is an out-of-bounds
`pgm_read_word` in the source — undefined behaviour — modelled here as an
arbitrary fixed value 0. -/
def midiReadAt (i : ℤ) : ℕ := if 0 ≤ i ∧ i < 128 then midiTable i.toNat else 0

/-- `pentatonicTable` from `auduino.cpp` (54 entries). -/
def pentatonicTable : List ℕ :=
  [0, 19, 22, 26, 29, 32, 38, 43, 51, 58, 65, 77, 86, 103, 115, 129, 154, 173, 206, 231, 259, 308, 346,
   411, 461, 518, 616, 691, 822, 923, 1036, 1232, 1383, 1644, 1845, 2071, 2463, 2765, 3288,
   3691, 4143, 4927, 5530, 6577, 7382, 8286, 9854, 11060, 13153, 14764, 16572, 19708, 22121, 26306]

/-- Index computed by `mapPentatonic`: `(1023-input)*53 >> 10`
(for inputs in the caller-guaranteed range 0–1023). -/
def mapPentatonicIdx (input : ℕ) : ℕ := ((1023 - input) * 53) >>> 10

/-- `mapPentatonic` from `auduino.cpp`. -/
def mapPentatonic (input : ℕ) : ℕ := pentatonicTable.getD (mapPentatonicIdx input) 0

/-- Index computed by `mapMidi`: `(1023-input) >> 3`
(for inputs in the caller-guaranteed range 0–1023). -/
def mapMidiIdx (input : ℕ) : ℕ := (1023 - input) >>> 3

/-- `mapMidi` from `auduino.cpp`. -/
def mapMidi (input : ℕ) : ℕ := midiTable (mapMidiIdx input)

/-! ## MIDI handlers (from `setup()` in `auduino.cpp`) -/

/-- Table index used by the note-on handler for the first sync phase:
`note.number - 24` with the `uint8_t` promoted to `int`. -/
def noteOnIdx0 (number : ℕ) : ℤ := (number : ℤ) - 24

/-- Table index used by the note-on handler for the second sync phase:
`note.number - 17` with the `uint8_t` promoted to `int`. -/
def noteOnIdx1 (number : ℕ) : ℤ := (number : ℤ) - 17

/-- The `noteOn` handler from `setup()`: with nonzero velocity it stores
the note fields, opens the gate, reinitializes the master envelope
(`amp = velocity << 8`, `decay = 1`, `divider = 4`) and sets both sync
increments from the chromatic table at `number - 24` and `number - 17`;
with velocity zero it closes the gate if the number matches the stored
note. -/
def noteOn (v : Voice) (number velocity : ℕ) : Voice :=
  if velocity ≠ 0 then
    { v with
      note := { gate := Gate.OPEN, number := number, velocity := velocity },
      env := { v.env with amp := (velocity <<< 8) % 65536, decay := 1, divider := 4 },
      sync0 := v.sync0.setInc (midiReadAt (noteOnIdx0 number)),
      sync1 := v.sync1.setInc (midiReadAt (noteOnIdx1 number)) }
  else if v.note.number = number then
    { v with note := { v.note with gate := Gate.CLOSED } }
  else v

/-- The `noteOff` handler from `setup()`: closes the gate when the number
matches the stored note. -/
def noteOff (v : Voice) (number : ℕ) : Voice :=
  if v.note.number = number then
    { v with note := { v.note with gate := Gate.CLOSED } }
  else v

/-- The `controlChange` handler from `setup()`: controller 1 sets the two
grain envelope decay rates (`value >> 3` and `value >> 4`), controllers 16
and 17 set the respective grain phase increments from the chromatic table,
and every other controller does nothing. -/
def controlChange (v : Voice) (controller value : ℕ) : Voice :=
  if controller = 1 then
    { v with
      grain0 := { v.grain0 with env := { v.grain0.env with decay := value >>> 3 } },
      grain1 := { v.grain1 with env := { v.grain1.env with decay := value >>> 4 } } }
  else if controller = 16 then
    { v with grain0 := { v.grain0 with phase := v.grain0.phase.setInc (midiTable value) } }
  else if controller = 17 then
    { v with grain1 := { v.grain1 with phase := v.grain1.phase.setInc (midiTable value) } }
  else v

/-! ## Interrupt-handler output pipeline (`ISR(PWM_INTERRUPT)`) -/

/-- `int8_t scaled_output = static_cast<uint8_t>(output >> 7) - 128`:
the combined grain output shifted down by 7, truncated to a byte and
recentred into the signed range. -/
def scaledOutput (output : ℕ) : ℤ := (((output >>> 7) % 256 : ℕ) : ℤ) - 128

/-- `scaled_output_x2 = mulsu(scaled_output, 2); scaled_output_x2 +=
scaled_output_x2 * env.value()`.  `mulsu` (from the absent `asm.h`) is
modelled from the spec as the plain signed-by-unsigned product, so the
result is `2*s + (2*s)*v`. -/
def scaledOutputX2 (s : ℤ) (v : ℕ) : ℤ := 2 * s + (2 * s) * (v : ℤ)

/-- A concrete all-zero voice used to instantiate universally quantified
theorems at a specific state. -/
def testVoice : Voice :=
  { note := { gate := Gate.CLOSED, number := 0, velocity := 0 },
    env := ⟨0, 0, 0, 0⟩,
    sync0 := ⟨0, 0, false⟩,
    sync1 := ⟨0, 0, false⟩,
    grain0 := ⟨⟨0, 0, false⟩, ⟨0, 0, 0, 0⟩⟩,
    grain1 := ⟨⟨0, 0, false⟩, ⟨0, 0, 0, 0⟩⟩ }

/-! ## Helper lemmas -/

/-- Every chromatic-table read is a 16-bit value. -/
theorem midiTable_lt_width (p : ℕ) : midiTable p < 65536 := by
  by_cases h : p < 128
  · exact (by decide : ∀ q, q < 128 → midiTable q < 65536) p h
  · unfold midiTable
    rw [List.getD_eq_default]
    · norm_num
    · have hlen : midiTableList.length = 128 := rfl
      omega

/-- Every (possibly out-of-range) chromatic-table read is a 16-bit value. -/
theorem midiReadAt_lt_width (i : ℤ) : midiReadAt i < 65536 := by
  unfold midiReadAt
  split
  · exact midiTable_lt_width _
  · norm_num

/-! ## Claims -/

/-- C1: for every 16-bit position and increment, `advance` wraps the
position modulo 2^16 and `hasOverflowed` reports true exactly when the
wrapped post-increment position is less than the pre-increment position
(equivalently, when the unwrapped sum reached 2^16); advancing once from
position 65000 with increment 1000 yields position 464 with overflow
reported true. -/
theorem phase_advance_wraps (pos inc : ℕ) (ov : Bool)
    (hpos : pos < 65536) (hinc : inc < 65536) :
    (Phase.advance ⟨pos, inc, ov⟩).pos = (pos + inc) % 65536 ∧
    ((Phase.advance ⟨pos, inc, ov⟩).hasOverflowed = true ↔
      (Phase.advance ⟨pos, inc, ov⟩).pos < pos) ∧
    ((Phase.advance ⟨pos, inc, ov⟩).hasOverflowed = true ↔ 65536 ≤ pos + inc) ∧
    Phase.advance ⟨65000, 1000, false⟩ = ⟨464, 1000, true⟩ := by
  refine ⟨rfl, by simp [Phase.advance, Phase.hasOverflowed], ?_, by decide⟩
  simp only [Phase.advance, Phase.hasOverflowed, decide_eq_true_eq]
  omega

/-- Witness for C1: the spec's end-to-end scenario B. -/
theorem phase_advance_wraps_witness :
    (Phase.advance ⟨65000, 1000, false⟩).pos = (65000 + 1000) % 65536 ∧
    ((Phase.advance ⟨65000, 1000, false⟩).hasOverflowed = true ↔
      (Phase.advance ⟨65000, 1000, false⟩).pos < 65000) ∧
    ((Phase.advance ⟨65000, 1000, false⟩).hasOverflowed = true ↔ 65536 ≤ 65000 + 1000) ∧
    Phase.advance ⟨65000, 1000, false⟩ = ⟨464, 1000, true⟩ :=
  phase_advance_wraps 65000 1000 false (by decide) (by decide)

/-- C5: the chromatic table is strictly increasing in pitch number. -/
theorem midiTable_strictMono (p : ℕ) (hp : p < 127) :
    midiTable p < midiTable (p + 1) :=
  (by decide : ∀ q, q < 127 → midiTable q < midiTable (q + 1)) p hp

/-- Witness for C5 at pitch 0. -/
theorem midiTable_strictMono_witness : midiTable 0 < midiTable 1 :=
  midiTable_strictMono 0 (by decide)

/-- C7: a single `tick` never increases the amplitude (the subtracted
`amplitude >> decayRate` never exceeds the amplitude, so the 16-bit
subtraction never wraps below zero), and across any finite sequence of
`tick` calls the amplitude is non-increasing. -/
theorem env_amp_monotone :
    (∀ e : Env, (e.amp >>> e.decay) ≤ e.amp ∧ (Env.tick e).amp ≤ e.amp) ∧
    (∀ (e : Env) (n : ℕ), (Env.tickN e n).amp ≤ e.amp) := by
  have hshift : ∀ e : Env, (e.amp >>> e.decay) ≤ e.amp := by
    intro e
    rw [Nat.shiftRight_eq_div_pow]
    exact Nat.div_le_self _ _
  have htick : ∀ e : Env, (Env.tick e).amp ≤ e.amp := by
    intro e
    unfold Env.tick
    dsimp only
    split
    · exact Nat.sub_le _ _
    · exact le_refl _
  refine ⟨fun e => ⟨hshift e, htick e⟩, ?_⟩
  intro e n
  induction n with
  | zero => exact le_refl _
  | succ n ih => exact le_trans (htick _) ih

/-- C9: for every control reading 0–1023 the pentatonic index
`(1023-input)*53 >> 10` stays at most 52 — strictly inside the 54-entry
table, never selecting the last entry — and the chromatic index
`(1023-input) >> 3` stays below 128. -/
theorem map_indices_in_range (input : ℕ) (h : input ≤ 1023) :
    mapPentatonicIdx input ≤ 52 ∧ mapPentatonicIdx input < 54 ∧
    mapMidiIdx input < 128 ∧
    pentatonicTable.length = 54 ∧ midiTableList.length = 128 := by
  have H : ∀ i, i ≤ 1023 → mapPentatonicIdx i ≤ 52 ∧ mapMidiIdx i < 128 := by decide
  obtain ⟨h1, h2⟩ := H input h
  exact ⟨h1, by omega, h2, rfl, rfl⟩

/-- Witness for C9 at control reading 0. -/
theorem map_indices_in_range_witness :
    mapPentatonicIdx 0 ≤ 52 ∧ mapPentatonicIdx 0 < 54 ∧
    mapMidiIdx 0 < 128 ∧
    pentatonicTable.length = 54 ∧ midiTableList.length = 128 :=
  map_indices_in_range 0 (by decide)

/-- C3: note-on with number 69 and velocity 127, in any prior voice state,
opens the gate with those note fields, sets the master envelope to
amplitude 127 << 8 = 32512, decay 1, divider 4, and sets the sync
increments from the chromatic table at pitches 69-24 = 45 and
69-17 = 52. -/
theorem noteOn_A4 (v : Voice) :
    (noteOn v 69 127).note = ⟨Gate.OPEN, 69, 127⟩ ∧
    (noteOn v 69 127).env.amp = 32512 ∧
    (noteOn v 69 127).env.decay = 1 ∧
    (noteOn v 69 127).env.divider = 4 ∧
    (noteOn v 69 127).sync0.inc = midiTable 45 ∧
    (noteOn v 69 127).sync1.inc = midiTable 52 ∧
    noteOnIdx0 69 = 45 ∧ noteOnIdx1 69 = 52 ∧
    midiTable 45 = 231 ∧ midiTable 52 = 346 := by
  unfold noteOn
  rw [if_pos (by decide : (127:ℕ) ≠ 0)]
  refine ⟨rfl, ?_, rfl, rfl, ?_, ?_, by decide, by decide, by decide, by decide⟩
  · show (127 <<< 8) % 65536 = 32512
    decide
  · show midiReadAt (noteOnIdx0 69) % 65536 = midiTable 45
    decide
  · show midiReadAt (noteOnIdx1 69) % 65536 = midiTable 52
    decide

/-- C6: the monophonic, last-note-priority gate machine: a note-on with
nonzero velocity opens the gate and overwrites the stored number and
velocity regardless of the previous state; a note-off for the stored
number, or a zero-velocity note-on for the stored number, closes the
gate; a note-off or zero-velocity note-on for a different number leaves
the voice completely unchanged. -/
theorem note_gate_machine :
    (∀ (v : Voice) (n vel : ℕ), 0 < vel →
      (noteOn v n vel).note.gate = Gate.OPEN ∧
      (noteOn v n vel).note.number = n ∧
      (noteOn v n vel).note.velocity = vel) ∧
    (∀ (v : Voice) (n : ℕ), v.note.number = n →
      (noteOff v n).note.gate = Gate.CLOSED) ∧
    (∀ (v : Voice) (n : ℕ), v.note.number = n →
      (noteOn v n 0).note.gate = Gate.CLOSED) ∧
    (∀ (v : Voice) (n : ℕ), v.note.number ≠ n →
      noteOff v n = v ∧ noteOn v n 0 = v) := by
  refine ⟨?_, ?_, ?_, ?_⟩
  · intro v n vel h
    unfold noteOn
    rw [if_pos (by omega : vel ≠ 0)]
    exact ⟨rfl, rfl, rfl⟩
  · intro v n h
    unfold noteOff
    rw [if_pos h]
  · intro v n h
    unfold noteOn
    rw [if_neg (by simp), if_pos h]
  · intro v n h
    constructor
    · unfold noteOff
      rw [if_neg h]
    · unfold noteOn
      rw [if_neg (by simp), if_neg h]

/-- Witness for C6: concrete transitions from the all-zero voice. -/
theorem note_gate_machine_witness :
    ((noteOn testVoice 69 127).note.gate = Gate.OPEN ∧
      (noteOn testVoice 69 127).note.number = 69 ∧
      (noteOn testVoice 69 127).note.velocity = 127) ∧
    (noteOff (noteOn testVoice 69 127) 69).note.gate = Gate.CLOSED ∧
    (noteOn (noteOn testVoice 69 127) 69 0).note.gate = Gate.CLOSED ∧
    (noteOff (noteOn testVoice 69 127) 70 = noteOn testVoice 69 127 ∧
      noteOn (noteOn testVoice 69 127) 70 0 = noteOn testVoice 69 127) :=
  ⟨note_gate_machine.1 testVoice 69 127 (by decide),
   note_gate_machine.2.1 _ 69 (by decide),
   note_gate_machine.2.2.1 _ 69 (by decide),
   note_gate_machine.2.2.2 _ 70 (by decide)⟩

/-- The frame the C8 claim asserts: everything except grain envelope decay
rates and the voice's sync increments is unchanged. -/
def onlyDecayAndSyncChanged (v w : Voice) : Prop :=
  w.note = v.note ∧ w.env = v.env ∧
  w.grain0.phase = v.grain0.phase ∧ w.grain1.phase = v.grain1.phase ∧
  w.grain0.env.amp = v.grain0.env.amp ∧ w.grain1.env.amp = v.grain1.env.amp ∧
  w.grain0.env.divider = v.grain0.env.divider ∧
  w.grain1.env.divider = v.grain1.env.divider ∧
  w.grain0.env.counter = v.grain0.env.counter ∧
  w.grain1.env.counter = v.grain1.env.counter

/-- Counterexample to C8 as stated: controller 16 with value 1 changes
`grains[0].phase.inc` — a grain phase increment, not a sync increment —
so the handler does not alter only grain decay rates and sync
increments. -/
theorem controlChange_touches_grain_phase_inc :
    ¬ onlyDecayAndSyncChanged testVoice (controlChange testVoice 16 1) := by
  unfold onlyDecayAndSyncChanged
  decide

/-- C8 (amended): the control-change handler alters only grain envelope
decay rates and grain phase increments; the note fields, the master
envelope, both sync phases, the grain phase positions and overflow flags,
and the grain envelope amplitudes, dividers and counters are left
unchanged. -/
theorem controlChange_frame (v : Voice) (c val : ℕ) :
    (controlChange v c val).note = v.note ∧
    (controlChange v c val).env = v.env ∧
    (controlChange v c val).sync0 = v.sync0 ∧
    (controlChange v c val).sync1 = v.sync1 ∧
    (controlChange v c val).grain0.phase.pos = v.grain0.phase.pos ∧
    (controlChange v c val).grain1.phase.pos = v.grain1.phase.pos ∧
    (controlChange v c val).grain0.phase.overflowed = v.grain0.phase.overflowed ∧
    (controlChange v c val).grain1.phase.overflowed = v.grain1.phase.overflowed ∧
    (controlChange v c val).grain0.env.amp = v.grain0.env.amp ∧
    (controlChange v c val).grain1.env.amp = v.grain1.env.amp ∧
    (controlChange v c val).grain0.env.divider = v.grain0.env.divider ∧
    (controlChange v c val).grain1.env.divider = v.grain1.env.divider ∧
    (controlChange v c val).grain0.env.counter = v.grain0.env.counter ∧
    (controlChange v c val).grain1.env.counter = v.grain1.env.counter := by
  unfold controlChange Phase.setInc
  split
  · exact ⟨rfl, rfl, rfl, rfl, rfl, rfl, rfl, rfl, rfl, rfl, rfl, rfl, rfl, rfl⟩
  · split
    · exact ⟨rfl, rfl, rfl, rfl, rfl, rfl, rfl, rfl, rfl, rfl, rfl, rfl, rfl, rfl⟩
    · split
      · exact ⟨rfl, rfl, rfl, rfl, rfl, rfl, rfl, rfl, rfl, rfl, rfl, rfl, rfl, rfl⟩
      · exact ⟨rfl, rfl, rfl, rfl, rfl, rfl, rfl, rfl, rfl, rfl, rfl, rfl, rfl, rfl⟩

/-- The triangle waveform value never exceeds a byte. -/
theorem tri_le_255 (pos : ℕ) : Grain.tri pos ≤ 255 := by
  unfold Grain.tri
  have h : (pos >>> 7) % 256 < 256 := Nat.mod_lt _ (by norm_num)
  dsimp only
  split
  · omega
  · omega

/-- A grain sample is bounded by 255 · 127 while the grain envelope
amplitude stays within the full-scale value set by `reset`. -/
theorem getSample_le (g : Grain) (h : g.env.amp ≤ 32767) :
    g.getSample ≤ 32385 := by
  unfold Grain.getSample
  have h1 : Grain.tri g.phase.pos ≤ 255 := tri_le_255 _
  have h2 : g.env.amp >>> 8 ≤ 127 := by
    rw [Nat.shiftRight_eq_div_pow]
    omega
  calc Grain.tri g.phase.pos * (g.env.amp >>> 8) ≤ 255 * 127 := Nat.mul_le_mul h1 h2
    _ ≤ 32385 := by norm_num

/-- `reset` restores a grain to phase position 0 and full-scale envelope
amplitude, so the bound fed to the mixing analysis is reestablished at
every retrigger. -/
theorem grain_reset_state (g : Grain) :
    (g.reset).phase.pos = 0 ∧ (g.reset).env.amp = 32767 ∧
    (g.reset).env.decay = g.env.decay ∧ (g.reset).env.divider = g.env.divider :=
  ⟨rfl, rfl, rfl, rfl⟩

/-- A note-on with an interface-valid velocity leaves the master envelope
amplitude at most 127 << 8 = 32512, and `tick` never raises it: the
master-envelope values reachable from valid note-on inputs keep
`value() ≤ 127`. -/
theorem master_env_amp_bound (v : Voice) (n vel : ℕ) (hvel : vel ≤ 127)
    (hv : v.env.amp ≤ 32512) :
    (noteOn v n vel).env.amp ≤ 32512 ∧ (Env.tick v.env).amp ≤ 32512 := by
  constructor
  · unfold noteOn
    split
    · show (vel <<< 8) % 65536 ≤ 32512
      have : vel <<< 8 = vel * 256 := by
        rw [Nat.shiftLeft_eq]
      rw [this]
      have h : vel * 256 ≤ 32512 := by omega
      omega
    · split
      · exact hv
      · exact hv
  · calc (Env.tick v.env).amp ≤ v.env.amp := by
          unfold Env.tick
          dsimp only
          split
          · exact Nat.sub_le _ _
          · exact le_refl _
      _ ≤ 32512 := hv

/-- C2: for all grain states within the full-scale amplitude bound and
every master-envelope value reachable from valid note-on inputs
(`value() ≤ 127`), the per-tick output computation stays in range: the
summed grain samples fit `uint16_t`, the recentred `scaled_output` fits
`int8_t`, and `scaled_output_x2 = mulsu(scaled_output,2) +
mulsu(scaled_output,2)·value` (including the intermediate `mulsu` result
and product) fits `int16_t`, so nothing overflows before the final PWM
write. -/
theorem output_pipeline_in_range (g0 g1 : Grain) (e : Env)
    (h0 : g0.env.amp ≤ 32767) (h1 : g1.env.amp ≤ 32767) (he : e.amp ≤ 32512) :
    g0.getSample + g1.getSample < 65536 ∧
    -128 ≤ scaledOutput (g0.getSample + g1.getSample) ∧
    scaledOutput (g0.getSample + g1.getSample) ≤ 127 ∧
    -256 ≤ 2 * scaledOutput (g0.getSample + g1.getSample) ∧
    2 * scaledOutput (g0.getSample + g1.getSample) ≤ 254 ∧
    -32512 ≤ 2 * scaledOutput (g0.getSample + g1.getSample) * (e.value : ℤ) ∧
    2 * scaledOutput (g0.getSample + g1.getSample) * (e.value : ℤ) ≤ 32258 ∧
    -32768 ≤ scaledOutputX2 (scaledOutput (g0.getSample + g1.getSample)) e.value ∧
    scaledOutputX2 (scaledOutput (g0.getSample + g1.getSample)) e.value ≤ 32512 := by
  have hs0 := getSample_le g0 h0
  have hs1 := getSample_le g1 h1
  have hout : g0.getSample + g1.getSample < 65536 := by omega
  set out := g0.getSample + g1.getSample with hout_def
  have hmod : (out >>> 7) % 256 < 256 := Nat.mod_lt _ (by norm_num)
  have hmodZ : (((out >>> 7) % 256 : ℕ) : ℤ) < 256 := by exact_mod_cast hmod
  have hmodZ0 : (0:ℤ) ≤ (((out >>> 7) % 256 : ℕ) : ℤ) := Int.natCast_nonneg _
  have hso_lo : -128 ≤ scaledOutput out := by
    unfold scaledOutput
    omega
  have hso_hi : scaledOutput out ≤ 127 := by
    unfold scaledOutput
    omega
  have hv : e.value ≤ 127 := by
    unfold Env.value
    rw [Nat.shiftRight_eq_div_pow]
    omega
  have hvZ : ((e.value : ℕ) : ℤ) ≤ 127 := by exact_mod_cast hv
  have hv0 : (0:ℤ) ≤ ((e.value : ℕ) : ℤ) := Int.natCast_nonneg _
  have kLo : (-256:ℤ) * (e.value : ℤ) ≤ (2 * scaledOutput out) * (e.value : ℤ) :=
    mul_le_mul_of_nonneg_right (by omega) hv0
  have kHi : (2 * scaledOutput out) * (e.value : ℤ) ≤ 254 * (e.value : ℤ) :=
    mul_le_mul_of_nonneg_right (by omega) hv0
  refine ⟨hout, hso_lo, hso_hi, by omega, by omega, ?_, ?_, ?_, ?_⟩
  · nlinarith [kLo, hvZ, hv0]
  · nlinarith [kHi, hvZ, hv0]
  · unfold scaledOutputX2
    nlinarith [kLo, hvZ, hv0]
  · unfold scaledOutputX2
    nlinarith [kHi, hvZ, hv0]

/-- Witness for C2 at a concrete mid-cycle grain pair and a full-velocity
master envelope. -/
theorem output_pipeline_in_range_witness :
    (let g : Grain := ⟨⟨40000, 100, false⟩, ⟨32767, 2, 1, 0⟩⟩
     let e : Env := ⟨32512, 1, 4, 0⟩
     g.getSample + g.getSample < 65536 ∧
     -128 ≤ scaledOutput (g.getSample + g.getSample) ∧
     scaledOutput (g.getSample + g.getSample) ≤ 127 ∧
     -256 ≤ 2 * scaledOutput (g.getSample + g.getSample) ∧
     2 * scaledOutput (g.getSample + g.getSample) ≤ 254 ∧
     -32512 ≤ 2 * scaledOutput (g.getSample + g.getSample) * (e.value : ℤ) ∧
     2 * scaledOutput (g.getSample + g.getSample) * (e.value : ℤ) ≤ 32258 ∧
     -32768 ≤ scaledOutputX2 (scaledOutput (g.getSample + g.getSample)) e.value ∧
     scaledOutputX2 (scaledOutput (g.getSample + g.getSample)) e.value ≤ 32512) :=
  output_pipeline_in_range ⟨⟨40000, 100, false⟩, ⟨32767, 2, 1, 0⟩⟩
    ⟨⟨40000, 100, false⟩, ⟨32767, 2, 1, 0⟩⟩ ⟨32512, 1, 4, 0⟩
    (by decide) (by decide) (by decide)

/-- C10: the note-on handler consults the chromatic table at `number-24`
and `number-17` unconditionally (no bounds guard); for every note number
in 24–127 both indices lie in the table's range 0–127, while the
interface-valid note-on with number 23 and velocity 1 drives the first
index below zero, outside the 128-entry table. -/
theorem noteOn_table_indices :
    (∀ (v : Voice) (n vel : ℕ), 0 < vel →
      (noteOn v n vel).sync0.inc = midiReadAt (noteOnIdx0 n) ∧
      (noteOn v n vel).sync1.inc = midiReadAt (noteOnIdx1 n)) ∧
    (∀ n : ℕ, 24 ≤ n → n ≤ 127 →
      0 ≤ noteOnIdx0 n ∧ noteOnIdx0 n < 128 ∧
      0 ≤ noteOnIdx1 n ∧ noteOnIdx1 n < 128) ∧
    (∃ n vel : ℕ, 0 < vel ∧ vel ≤ 127 ∧ n < 24 ∧ noteOnIdx0 n < 0) := by
  refine ⟨?_, ?_, 23, 1, by decide, by decide, by decide, by decide⟩
  · intro v n vel h
    unfold noteOn
    rw [if_pos (by omega : vel ≠ 0)]
    constructor
    · exact Nat.mod_eq_of_lt (midiReadAt_lt_width _)
    · exact Nat.mod_eq_of_lt (midiReadAt_lt_width _)
  · intro n h1 h2
    unfold noteOnIdx0 noteOnIdx1
    omega

/-- Witness for C10 at note number 69 with velocity 1. -/
theorem noteOn_table_indices_witness :
    ((noteOn testVoice 69 1).sync0.inc = midiReadAt (noteOnIdx0 69) ∧
      (noteOn testVoice 69 1).sync1.inc = midiReadAt (noteOnIdx1 69)) ∧
    (0 ≤ noteOnIdx0 69 ∧ noteOnIdx0 69 < 128 ∧
      0 ≤ noteOnIdx1 69 ∧ noteOnIdx1 69 < 128) :=
  ⟨noteOn_table_indices.1 testVoice 69 1 (by decide),
   noteOn_table_indices.2.1 69 (by decide) (by decide)⟩

/-! ## The chromatic table versus the equal-tempered pitch formula -/

/-- The twelfth power of the equal-tempered ratio `2^((p-69)/12)` is the
rational number `2^p / 2^69`. -/
theorem rpow_twelfth_pow (p : ℕ) :
    ((2:ℝ) ^ (((p:ℝ) - 69) / 12)) ^ (12:ℕ) = 2 ^ p / 2 ^ 69 := by
  have h2 : (0:ℝ) < 2 := by norm_num
  have h1 : ((2:ℝ) ^ (((p:ℝ) - 69) / 12)) ^ (12:ℕ) =
      (2:ℝ) ^ ((((p:ℝ) - 69) / 12) * 12) := by
    rw [← Real.rpow_natCast ((2:ℝ) ^ (((p:ℝ) - 69) / 12)) 12,
      ← Real.rpow_mul h2.le]
    norm_num
  have h12 : (((p:ℝ) - 69) / 12) * 12 = (p:ℝ) - 69 := by
    field_simp
  rw [h1, h12, Real.rpow_sub h2]
  have h69 : (69:ℝ) = ((69:ℕ):ℝ) := by norm_num
  rw [h69, Real.rpow_natCast, Real.rpow_natCast]

/-- Bridging lemma: two integer inequalities pin the rounded value of the
pitch-to-increment formula `440 · 2^((p-69)/12) · 65536 / 31250`
(`freqToInc(midiNoteToFreq(p), 65536, 31250)` rounds half-up, i.e.
adds 0.5 and truncates). -/
theorem midiRound (p n : ℕ) (hn : 1 ≤ n)
    (hlo : ((2 * n - 1) * 31250) ^ 12 * 2 ^ 69 ≤ (2 * 28835840) ^ 12 * 2 ^ p)
    (hhi : (2 * 28835840) ^ 12 * 2 ^ p < ((2 * n + 1) * 31250) ^ 12 * 2 ^ 69) :
    round ((440:ℝ) * 2 ^ (((p:ℝ) - 69) / 12) * 65536 / 31250) = (n:ℤ) := by
  set x : ℝ := (2:ℝ) ^ (((p:ℝ) - 69) / 12) with hxdef
  have hx : 0 < x := Real.rpow_pos_of_pos (by norm_num) _
  have hx12 : x ^ (12:ℕ) = 2 ^ p / 2 ^ 69 := rpow_twelfth_pow p
  have hcast : (((2 * n - 1) * 31250 : ℕ) : ℝ) = (2 * (n:ℝ) - 1) * 31250 := by
    push_cast [Nat.cast_sub (show 1 ≤ 2 * n by omega)]
    ring
  have hloR : ((2 * (n:ℝ) - 1) * 31250) ^ 12 * 2 ^ 69 ≤
      ((2 * 28835840 : ℝ)) ^ 12 * 2 ^ p := by
    calc ((2 * (n:ℝ) - 1) * 31250) ^ 12 * 2 ^ 69
        = ((((2 * n - 1) * 31250) ^ 12 * 2 ^ 69 : ℕ) : ℝ) := by
          rw [← hcast]; push_cast; ring
      _ ≤ (((2 * 28835840) ^ 12 * 2 ^ p : ℕ) : ℝ) := by exact_mod_cast hlo
      _ = ((2 * 28835840 : ℝ)) ^ 12 * 2 ^ p := by push_cast; ring
  have hhiR : ((2 * 28835840 : ℝ)) ^ 12 * 2 ^ p <
      ((2 * (n:ℝ) + 1) * 31250) ^ 12 * 2 ^ 69 := by
    calc ((2 * 28835840 : ℝ)) ^ 12 * 2 ^ p
        = (((2 * 28835840) ^ 12 * 2 ^ p : ℕ) : ℝ) := by push_cast; ring
      _ < ((((2 * n + 1) * 31250) ^ 12 * 2 ^ 69 : ℕ) : ℝ) := by exact_mod_cast hhi
      _ = ((2 * (n:ℝ) + 1) * 31250) ^ 12 * 2 ^ 69 := by push_cast; ring
  have hlx : (2 * (n:ℝ) - 1) * 31250 ≤ 2 * 28835840 * x := by
    apply le_of_pow_le_pow_left₀ (show 12 ≠ 0 by norm_num)
      (show (0:ℝ) ≤ 2 * 28835840 * x by positivity)
    rw [mul_pow (2 * 28835840 : ℝ) x 12, hx12]
    have hsplit : ((2 * 28835840 : ℝ)) ^ 12 * (2 ^ p / 2 ^ 69) =
        ((2 * 28835840 : ℝ)) ^ 12 * 2 ^ p / 2 ^ 69 := by ring
    rw [hsplit, le_div_iff₀ (show (0:ℝ) < 2 ^ 69 by positivity)]
    exact hloR
  have hhx : 2 * 28835840 * x < (2 * (n:ℝ) + 1) * 31250 := by
    apply lt_of_pow_lt_pow_left₀ 12
      (show (0:ℝ) ≤ (2 * (n:ℝ) + 1) * 31250 by positivity)
    rw [mul_pow (2 * 28835840 : ℝ) x 12, hx12]
    have hsplit : ((2 * 28835840 : ℝ)) ^ 12 * (2 ^ p / 2 ^ 69) =
        ((2 * 28835840 : ℝ)) ^ 12 * 2 ^ p / 2 ^ 69 := by ring
    rw [hsplit, div_lt_iff₀ (show (0:ℝ) < 2 ^ 69 by positivity)]
    exact hhiR
  have hy31 : ((440:ℝ) * x * 65536 / 31250) * 31250 = 28835840 * x := by
    field_simp
    ring
  rw [round_eq]
  refine Int.floor_eq_iff.mpr ⟨?_, ?_⟩
  · push_cast
    linarith [hlx, hy31]
  · push_cast
    linarith [hhx, hy31]

/-- The two integer inequalities needed by `midiRound` hold at every entry
of the chromatic table. -/
theorem midiTable_bounds : ∀ p, p < 128 →
    1 ≤ midiTable p ∧
    ((2 * midiTable p - 1) * 31250) ^ 12 * 2 ^ 69 ≤ (2 * 28835840) ^ 12 * 2 ^ p ∧
    (2 * 28835840) ^ 12 * 2 ^ p < ((2 * midiTable p + 1) * 31250) ^ 12 * 2 ^ 69 := by
  decide

/-- C4: every chromatic-table entry equals the rounded pitch formula
`round(440 · 2^((p-69)/12) · 65536 / 31250)`, and setting a sync
increment from the table at pitch `p` and reading it back yields exactly
that value. -/
theorem midiTable_matches_pitch_formula (p : ℕ) (hp : p < 128) :
    ((midiTable p : ℤ) =
      round ((440:ℝ) * 2 ^ (((p:ℝ) - 69) / 12) * 65536 / 31250)) ∧
    (∀ ph : Phase, (ph.setInc (midiTable p)).inc = midiTable p) := by
  obtain ⟨hn, hlo, hhi⟩ := midiTable_bounds p hp
  refine ⟨(midiRound p (midiTable p) hn hlo hhi).symm, ?_⟩
  intro ph
  show midiTable p % 65536 = midiTable p
  exact Nat.mod_eq_of_lt (midiTable_lt_width p)

/-- Witness for C4 at pitch 69 (A4: the table entry is 923 and the
formula gives 440 · 65536 / 31250 = 922.746…). -/
theorem midiTable_matches_pitch_formula_witness :
    ((midiTable 69 : ℤ) =
      round ((440:ℝ) * 2 ^ ((((69:ℕ):ℝ) - 69) / 12) * 65536 / 31250)) ∧
    (∀ ph : Phase, (ph.setInc (midiTable 69)).inc = midiTable 69) :=
  midiTable_matches_pitch_formula 69 (by decide)

end Auduino
